import Mathlib

/-!
Verification development for the bsky-firehose backend.

This file gives a shallow embedding, in Lean 4, of the parts of the
repository relevant to the frozen specification claims:

* `app/repositories/bluesky.py` — the user, post and raw-message
  repositories (sequence-monotonic upserts, commit processing with
  soft delete, raw-message archival);
* `app/workers/persistence.py` — the persistence worker's per-message
  processing and the circuit-breaker state of its cycle loop;
* `app/services/jetstream_client.py` — subscription URL construction,
  cursor tracking and cursor-based resumption.

Database rows are modelled as structures, tables as lists of rows with a
fresh-id counter, and the SQLAlchemy `create` / `update` / `get_by`
operations of `app/repositories/base.py` as the corresponding pure list
operations.  Python exceptions that the code catches and branches on
(failed `int(...)` coercion, failed `model_dump` serialization, failed
entity-level apply) are modelled as explicit `Option`/`Bool` data, so
that every branch of the source is represented by a branch of the
embedding.
-/

namespace BskyFirehose

/-! ## Python-level helpers -/

/-- Digits-only parse of a list of characters, as used by Python's
`int(...)` on the unsigned core of a numeral; `none` when the list is
empty or contains a non-digit. -/
def digitsToNat (l : List Char) : Option Nat :=
  if !l.isEmpty && l.all (fun c => c.isDigit) then
    some (l.foldl (fun a c => a * 10 + (c.toNat - 48)) 0)
  else none

/-- Whether one string is a prefix of another (the semantics of
`str.startswith`, written over character lists so that concrete
instances compute by kernel reduction). -/
def strStartsWith (s p : String) : Bool :=
  p.data.isPrefixOf s.data

/-- Model of Python `int(s)` on a string: strip surrounding whitespace,
allow one leading sign, then require a non-empty run of digits;
`none` models the `ValueError` branch. -/
def pyIntOfString (s : String) : Option Int :=
  let t :=
    ((s.data.dropWhile Char.isWhitespace).reverse.dropWhile
      Char.isWhitespace).reverse
  match t with
  | '-' :: rest => (digitsToNat rest).map (fun n => -(n : Int))
  | '+' :: rest => (digitsToNat rest).map (fun n => (n : Int))
  | l => (digitsToNat l).map (fun n => (n : Int))

/-- A dynamically-typed sequence-number slot: the repository compares
sequence numbers via `int(str(x))`, so the value may be an integer or an
arbitrary string (the latter makes the coercion fail). -/
inductive SeqVal where
  | int : Int → SeqVal
  | str : String → SeqVal
deriving DecidableEq, Repr

/-- Model of Python `str(x)` on a sequence-number slot. -/
def pyStrOfSeq : SeqVal → String
  | SeqVal.int n => toString n
  | SeqVal.str s => s

/-- `int(str(x))` as performed at `bluesky.py:67-68` and `107-108`;
`none` models the caught `ValueError`/`TypeError`. -/
def seqCoerce (v : SeqVal) : Option Int :=
  pyIntOfString (pyStrOfSeq v)

/-- Python `s[-n:]`: the last `n` characters (the whole string when it
is shorter than `n`). -/
def pyTail (s : String) (n : Nat) : String :=
  String.mk (s.data.drop (s.data.length - n))

/-- Python dict assignment `d[k] = v`: overwrite in place when the key
exists, append otherwise (insertion order is preserved). -/
def dictInsert (d : List (String × String)) (k : String) (v : String) :
    List (String × String) :=
  if d.any (fun kv => kv.1 = k) then
    d.map (fun kv => if kv.1 = k then (k, v) else kv)
  else d ++ [(k, v)]

/-- Python `{**a, **b}` / iterated `a[k] = v` for every entry of `b`. -/
def dictMerge (a b : List (String × String)) : List (String × String) :=
  b.foldl (fun d kv => dictInsert d kv.1 kv.2) a

/-- Key lookup in a modelled Python dict. -/
def alookup (d : List (String × String)) (k : String) : Option String :=
  (d.find? (fun kv => kv.1 = k)).map (fun kv => kv.2)

/-! ## Wire types (`app/models/jetstream_types.py`) -/

/-- `Subject`: the post-validator normal form always has both fields
(string subjects are converted to `Subject(uri=v)` with empty cid). -/
structure Subject where
  cid : String := ""
  uri : String := ""
deriving DecidableEq, Repr

/-- `Reply`: parent and root references of a reply record. -/
structure Reply where
  parent : Subject
  root : Subject
deriving DecidableEq, Repr

/-- `Record`: a commit's record payload.  `extra` models the open bag of
extra fields kept by pydantic's `extra = "allow"` configuration, i.e.
the keys of `model_dump()` beyond the declared fields. -/
structure Record where
  record_type : String
  createdAt : String
  subject : Option Subject := none
  text : Option String := none
  langs : Option (List String) := none
  reply : Option Reply := none
  extra : List (String × String) := []
deriving DecidableEq, Repr

/-- The `operation` literal of a `Commit`. -/
inductive Op where
  | create
  | update
  | delete
deriving DecidableEq, Repr

/-- String value stored in the `operation` column for each literal. -/
def opStr : Op → String
  | Op.create => "create"
  | Op.update => "update"
  | Op.delete => "delete"

/-- `Commit` message payload. -/
structure Commit where
  rev : String
  operation : Op
  collection : String
  rkey : String
  record : Option Record := none
deriving DecidableEq, Repr

/-- `Identity` message payload.  `seq` is declared `int` upstream but the
repository re-coerces it with `int(str(...))`, so it is modelled as a
dynamic slot. -/
structure Identity where
  did : String
  handle : String
  seq : SeqVal
  time : String
deriving DecidableEq, Repr

/-- `Account` message payload. -/
structure Account where
  active : Bool
  did : String
  seq : SeqVal
  time : String
deriving DecidableEq, Repr

/-- The `kind` literal of a `Message`. -/
inductive Kind where
  | commit
  | identity
  | account
deriving DecidableEq, Repr

/-- String form of a message kind. -/
def kindStr : Kind → String
  | Kind.commit => "commit"
  | Kind.identity => "identity"
  | Kind.account => "account"

/-- `Message`: the Jetstream event envelope.  `dumpOk`/`dumpErr` model
the environment-dependent outcome of the `model_dump()` serialization
attempted by `store_raw_message` (`bluesky.py:417-435`): when it raises,
the code catches the exception and records its text. -/
structure Message where
  did : String
  time_us : Int
  kind : Kind
  commit : Option Commit := none
  identity : Option Identity := none
  account : Option Account := none
  dumpOk : Bool := true
  dumpErr : String := ""
deriving DecidableEq, Repr

/-! ## User repository (`BlueskyUserRepository`) -/

/-- A row of the `bluesky_user` table. -/
structure UserRow where
  id : Nat
  did : String
  handle : String
  seq : Option SeqVal
  bsky_timestamp : String
  active : Bool
deriving DecidableEq, Repr

/-- The `bluesky_user` table: rows plus a fresh primary-key counter. -/
structure UserStore where
  rows : List UserRow
  nextId : Nat
deriving DecidableEq, Repr

/-- The empty user table. -/
def emptyUsers : UserStore := { rows := [], nextId := 0 }

/-- `get_by(did=...)`: first row with the given did. -/
def getByDid (st : UserStore) (did : String) : Option UserRow :=
  st.rows.find? (fun u => u.did = did)

/-- Generic `update(id, ...)` from `base.py`, specialised to a full
replacement row computed by the caller: returns the updated row, or
`none` when no row carries the id. -/
def updateUserRow (st : UserStore) (i : Nat) (v : UserRow) :
    UserStore × Option UserRow :=
  if st.rows.any (fun u => u.id = i) then
    ({ st with rows := st.rows.map (fun u => if u.id = i then v else u) }, some v)
  else (st, none)

/-- Generic `create(...)` from `base.py` for users: append a row with a
fresh id. -/
def createUser (st : UserStore) (did handle : String) (seq : Option SeqVal)
    (time : String) (active : Bool) : UserStore × UserRow :=
  let v : UserRow :=
    { id := st.nextId, did := did, handle := handle, seq := seq,
      bsky_timestamp := time, active := active }
  ({ rows := st.rows ++ [v], nextId := st.nextId + 1 }, v)

/-- Whether the stored sequence value makes the repository skip an
incoming update (`bluesky.py:65-74` / `105-114`): skip exactly when both
`int(str(...))` coercions succeed and stored ≥ incoming; any coercion
failure is caught and the update proceeds. -/
def seqSkips (stored : Option SeqVal) (incoming : SeqVal) : Bool :=
  match stored with
  | none => false
  | some sv =>
    match seqCoerce sv, seqCoerce incoming with
    | some cur, some nw => cur ≥ nw
    | _, _ => false

/-- `BlueskyUserRepository.upsert_from_identity` (`bluesky.py:43-88`). -/
def upsert_from_identity (st : UserStore) (idn : Identity) :
    UserStore × UserRow :=
  match getByDid st idn.did with
  | some u =>
    if seqSkips u.seq idn.seq then (st, u)
    else
      let v : UserRow :=
        { id := u.id, did := idn.did, handle := idn.handle,
          seq := some idn.seq, bsky_timestamp := idn.time, active := true }
      let r := updateUserRow st u.id v
      (r.1, r.2.getD u)
  | none => createUser st idn.did idn.handle (some idn.seq) idn.time true

/-- `BlueskyUserRepository.update_from_account` (`bluesky.py:90-142`). -/
def update_from_account (st : UserStore) (acc : Account) :
    UserStore × UserRow :=
  match getByDid st acc.did with
  | some u =>
    if seqSkips u.seq acc.seq then (st, u)
    else
      let v : UserRow :=
        { u with active := acc.active, seq := some acc.seq,
                 bsky_timestamp := acc.time }
      let r := updateUserRow st u.id v
      (r.1, r.2.getD u)
  | none =>
    createUser st acc.did ("user_" ++ pyTail acc.did 8) (some acc.seq)
      acc.time acc.active

/-! ## Post repository (`BlueskyPostRepository`) -/

/-- A row of the `bluesky_post` table.  `additional_data` is the JSONB
column holding the record fields not mapped to a fixed column. -/
structure PostRow where
  id : Nat
  cid : String := ""
  uri : String := ""
  text : Option String := none
  langs : Option (List String) := none
  record_type : String := ""
  bsky_created_at : String := ""
  rev : String := ""
  rkey : String := ""
  collection : String := ""
  operation : String := ""
  user_id : Nat := 0
  parent_cid : Option String := none
  parent_uri : Option String := none
  root_cid : Option String := none
  root_uri : Option String := none
  additional_data : Option (List (String × String)) := none
deriving DecidableEq, Repr

/-- The `bluesky_post` table. -/
structure PostStore where
  rows : List PostRow
  nextId : Nat
deriving DecidableEq, Repr

/-- The empty post table. -/
def emptyPosts : PostStore := { rows := [], nextId := 0 }

/-- `get_by(uri=...)`: first row with the given uri. -/
def getByUri (st : PostStore) (uri : String) : Option PostRow :=
  st.rows.find? (fun p => p.uri = uri)

/-- Generic `update(id, ...)` for posts, with the caller-computed
replacement row. -/
def updatePostRow (st : PostStore) (i : Nat) (v : PostRow) :
    PostStore × Option PostRow :=
  if st.rows.any (fun p => p.id = i) then
    ({ st with rows := st.rows.map (fun p => if p.id = i then v else p) }, some v)
  else (st, none)

/-- The derived content URI `at://{user.did}/{collection}/{rkey}`
(`bluesky.py:217`, `258`). -/
def postUri (u : UserRow) (c : Commit) : String :=
  "at://" ++ u.did ++ "/" ++ c.collection ++ "/" ++ c.rkey

/-- Fields of `model_dump()` that are already stored in fixed columns
and therefore excluded from `additional_data` (`bluesky.py:345`). -/
def excludedFields : List String :=
  ["text", "langs", "createdAt", "record_type", "subject", "reply"]

/-- The `additional_data` payload extracted from a record
(`bluesky.py:349-350`): the dump's open fields minus the excluded ones
and minus keys starting with an underscore. -/
def additionalFields (r : Record) : List (String × String) :=
  r.extra.filter
    (fun kv => !(excludedFields.contains kv.1) && !(strStartsWith kv.1 "_"))

/-- The `post_data` written by a create/update commit
(`bluesky.py:266-359`), applied on top of an existing row (for the
create path the row is a fresh blank row, so omitted keys keep their
column defaults; for the update path omitted keys — the reply pointers
when the record has no `reply` — keep their stored values). -/
def applyPostData (p : PostRow) (c : Commit) (r : Record) (u : UserRow) :
    PostRow :=
  let base : PostRow :=
    { p with
      uri := postUri u c, rev := c.rev, rkey := c.rkey,
      collection := c.collection, operation := opStr c.operation,
      user_id := u.id,
      cid := (match r.subject with
              | some s => s.cid
              | none => ""),
      text := r.text, langs := r.langs, record_type := r.record_type,
      bsky_created_at := r.createdAt,
      additional_data := some (additionalFields r) }
  match r.reply with
  | some rp =>
    { base with
      parent_cid := some rp.parent.cid, parent_uri := some rp.parent.uri,
      root_cid := some rp.root.cid, root_uri := some rp.root.uri }
  | none => base

/-- `BlueskyPostRepository.process_post_commit` (`bluesky.py:200-373`).
`now` is the wall-clock timestamp `datetime.now().isoformat()` used for
the soft-delete marker.  Returns the new table state and the returned
post (with the delete branch's returned object reflecting the applied
update, per SQLAlchemy's session synchronization). -/
def process_post_commit (st : PostStore) (c : Commit) (u : UserRow)
    (now : String) : PostStore × Option PostRow :=
  match c.record with
  | none => (st, none)
  | some r =>
    if !(strStartsWith c.collection "app.bsky.feed.") then (st, none)
    else if c.operation = Op.delete then
      match getByUri st (postUri u c) with
      | none => (st, none)
      | some p =>
        let merged := dictInsert (p.additional_data.getD []) "deleted_at" now
        let p2 : PostRow :=
          { p with operation := "delete", additional_data := some merged }
        ((updatePostRow st p.id p2).1, some p2)
    else
      match getByUri st (postUri u c) with
      | some p =>
        let v := applyPostData p c r u
        let res := updatePostRow st p.id v
        (res.1, some (res.2.getD p))
      | none =>
        let v := applyPostData { id := st.nextId } c r u
        ({ rows := st.rows ++ [v], nextId := st.nextId + 1 }, some v)

/-! ## Raw-message repository (`RawMessageRepository`) -/

/-- A row of the `raw_message` table, with exactly the columns the
schema declares (`app/models/db/bluesky.py:99-127`): there is no
`additional_data` column, which is why the persistence worker's
annotation write against it fails (see `process_message`). -/
structure RawRow where
  id : Nat
  did : String
  time_us : Int
  kind : String
  raw_data : List (String × String)
  processed : Bool
deriving DecidableEq, Repr

/-- The `raw_message` table. -/
structure RawStore where
  rows : List RawRow
  nextId : Nat
deriving DecidableEq, Repr

/-- The empty raw-message table. -/
def emptyRaw : RawStore := { rows := [], nextId := 0 }

/-- The base fields always placed in `raw_data` (`bluesky.py:411-415`). -/
def rawBaseData (m : Message) : List (String × String) :=
  [("did", m.did), ("time_us", toString m.time_us), ("kind", kindStr m.kind)]

/-- Rendering of an optional nested payload inside the serialized dump. -/
def optRender {α : Type} (f : α → String) : Option α → String
  | some x => f x
  | none => "None"

/-- Flat rendering of a subject. -/
def renderSubject (s : Subject) : String :=
  s.cid ++ "," ++ s.uri

/-- Flat rendering of a record. -/
def renderRecord (r : Record) : String :=
  r.record_type ++ "|" ++ r.createdAt ++ "|" ++
    optRender renderSubject r.subject ++ "|" ++ optRender (fun t => t) r.text

/-- Flat rendering of a commit payload. -/
def renderCommit (c : Commit) : String :=
  c.rev ++ "|" ++ opStr c.operation ++ "|" ++ c.collection ++ "|" ++
    c.rkey ++ "|" ++ optRender renderRecord c.record

/-- Flat rendering of an identity payload. -/
def renderIdentity (i : Identity) : String :=
  i.did ++ "|" ++ i.handle ++ "|" ++ pyStrOfSeq i.seq ++ "|" ++ i.time

/-- Flat rendering of an account payload. -/
def renderAccount (a : Account) : String :=
  (if a.active then "True" else "False") ++ "|" ++ a.did ++ "|" ++
    pyStrOfSeq a.seq ++ "|" ++ a.time

/-- The full serialized dict produced by a successful
`message.model_dump()` followed by datetime normalization
(`bluesky.py:419-431`): the declared envelope fields, every nested value
rendered to a serializable form. -/
def msgDumpDict (m : Message) : List (String × String) :=
  rawBaseData m ++
    [("commit", optRender renderCommit m.commit),
     ("identity", optRender renderIdentity m.identity),
     ("account", optRender renderAccount m.account)]

/-- `RawMessageRepository.store_raw_message` (`bluesky.py:392-442`):
always creates one row with `processed = False`; `raw_data` starts from
the base fields and is merged with the full dump when serialization
succeeds, or annotated with the failure text under `"error"` when it
raises (the exception is caught, never propagated). -/
def store_raw_message (st : RawStore) (m : Message) : RawStore × RawRow :=
  let rawData :=
    if m.dumpOk then dictMerge (rawBaseData m) (msgDumpDict m)
    else dictInsert (rawBaseData m) "error" m.dumpErr
  let row : RawRow :=
    { id := st.nextId, did := m.did, time_us := m.time_us,
      kind := kindStr m.kind, raw_data := rawData, processed := false }
  ({ rows := st.rows ++ [row], nextId := st.nextId + 1 }, row)

/-- `RawMessageRepository.mark_as_processed` (`bluesky.py:444-454`). -/
def markProcessed (st : RawStore) (i : Nat) : RawStore :=
  { st with
    rows := st.rows.map
      (fun r => if r.id = i then { r with processed := true } else r) }

/-! ## Persistence worker (`app/workers/persistence.py`) -/

/-- The three tables touched by the persistence worker. -/
structure Stores where
  users : UserStore
  posts : PostStore
  raw : RawStore
deriving DecidableEq, Repr

/-- `get_or_create` on users as invoked by the commit branch
(`persistence.py:110-118`): look up by did, otherwise create a
placeholder with handle `unknown-{did[-8:]}`, seq 0, the current time
and active status. -/
def getOrCreateUser (st : UserStore) (did : String) (now : String) :
    UserStore × UserRow :=
  match getByDid st did with
  | some u => (st, u)
  | none => createUser st did ("unknown-" ++ pyTail did 8)
      (some (SeqVal.int 0)) now true

/-- The entity-level dispatch of `process_message`
(`persistence.py:98-124`): route the event by kind to the matching
repository apply; a kind whose payload is absent applies nothing. -/
def applyEntity (us : UserStore) (ps : PostStore) (m : Message)
    (now : String) : UserStore × PostStore :=
  match m.kind with
  | Kind.identity =>
    match m.identity with
    | some idn => ((upsert_from_identity us idn).1, ps)
    | none => (us, ps)
  | Kind.account =>
    match m.account with
    | some acc => ((update_from_account us acc).1, ps)
    | none => (us, ps)
  | Kind.commit =>
    match m.commit with
    | some c =>
      let r := getOrCreateUser us m.did now
      (r.1, (process_post_commit ps c r.2 now).1)
    | none => (us, ps)

/-- `PersistenceWorker.process_message` (`persistence.py:75-154`).
The raw message is archived (flushed, not yet committed) first; the
entity-level apply follows.  `fault` models an environment failure of
the entity-level apply (store unavailable, constraint violation):

* `none`: the entities are applied, the archived row is marked
  processed, and the transaction commits.
* `some err`: the `except` branch runs `session.rollback()`
  (`persistence.py:136`), which discards the whole uncommitted
  transaction — including the flushed archive insert, since the comment
  announces a savepoint but the code rolls back the outer transaction;
  the follow-up `update` (`persistence.py:142-149`) then sets
  `processed` together with an `additional_data` key that the
  `raw_message` table does not declare, so the statement raises and the
  inner `except` (`persistence.py:152-153`) swallows it.  The net
  effect on every table is nothing, which is what this branch returns. -/
def process_message (st : Stores) (m : Message) (fault : Option String)
    (now : String) : Stores :=
  let pr := store_raw_message st.raw m
  match fault with
  | some _ => st
  | none =>
    let ep := applyEntity st.users st.posts m now
    { users := ep.1, posts := ep.2, raw := markProcessed pr.1 pr.2.id }

/-- A raw Kafka payload as seen by `deserialize_message`: it either
deserializes to a `Message` or is malformed (JSON or validation error,
caught at `persistence.py:64-73`). -/
inductive KafkaPayload where
  | malformed
  | valid : Message → KafkaPayload
deriving DecidableEq, Repr

/-- `PersistenceWorker.deserialize_message` (`persistence.py:54-73`):
`none` on malformed input, the parsed message otherwise. -/
def deserialize_message : KafkaPayload → Option Message
  | KafkaPayload.malformed => none
  | KafkaPayload.valid m => some m

/-- The per-batch message loop of `PersistenceWorker.run`
(`persistence.py:202-210`): each delivered payload is deserialized, and
only a successfully deserialized message is processed (a malformed one
is dropped).  Each input carries its entity-apply fault, if any. -/
def runBatch (st : Stores) (inputs : List (KafkaPayload × Option String))
    (now : String) : Stores :=
  inputs.foldl
    (fun s ie =>
      match deserialize_message ie.1 with
      | some m => process_message s m ie.2 now
      | none => s)
    st

/-- Circuit-breaker state of the worker's cycle loop
(`persistence.py:176-235`). -/
structure CBState where
  consecutiveErrors : Nat
  backoffTime : Nat
deriving DecidableEq, Repr

/-- Initial circuit-breaker state (`persistence.py:177-180`). -/
def cbInit : CBState := { consecutiveErrors := 0, backoffTime := 1 }

/-- Outcome of one cycle of the worker loop: an exception, an empty
poll, or a successfully processed batch. -/
inductive CycleOutcome where
  | fail
  | idle
  | ok
deriving DecidableEq, Repr

/-- One cycle's effect on the circuit-breaker state:
a failure increments the counter and, once it has reached the threshold
of 5, doubles the backoff capped at 60 (`persistence.py:226-233`);
an empty poll with a positive counter decrements it and halves the
backoff with floor 1 (`persistence.py:192-197`);
a successful batch resets counter and backoff (`persistence.py:215-217`). -/
def cbStep (s : CBState) : CycleOutcome → CBState
  | CycleOutcome.fail =>
    let ce := s.consecutiveErrors + 1
    { consecutiveErrors := ce,
      backoffTime := if ce ≥ 5 then min (s.backoffTime * 2) 60 else s.backoffTime }
  | CycleOutcome.idle =>
    if s.consecutiveErrors > 0 then
      { consecutiveErrors := s.consecutiveErrors - 1,
        backoffTime := max 1 (s.backoffTime / 2) }
    else s
  | CycleOutcome.ok => { consecutiveErrors := 0, backoffTime := 1 }

/-- Folding a sequence of cycle outcomes through the circuit breaker. -/
def cbRun (outs : List CycleOutcome) (s : CBState) : CBState :=
  outs.foldl cbStep s

/-! ## Jetstream client (`app/services/jetstream_client.py`) -/

/-- Uppercase hex digit of a value below 16. -/
def hexDigitChar (n : Nat) : Char :=
  if n < 10 then Char.ofNat (48 + n) else Char.ofNat (55 + n)

/-- `%XX` percent-encoding of one byte. -/
def percentByte (n : Nat) : String :=
  String.mk ['%', hexDigitChar (n / 16), hexDigitChar (n % 16)]

/-- The bytes `urllib.parse.quote` never encodes: ASCII alphanumerics
and `_ . - ~`. -/
def isSafeByte (n : Nat) : Bool :=
  (48 ≤ n && n ≤ 57) || (65 ≤ n && n ≤ 90) || (97 ≤ n && n ≤ 122) ||
    n == 45 || n == 46 || n == 95 || n == 126

/-- One byte under `quote_plus`: space becomes `+`, safe bytes pass
through, everything else is percent-encoded. -/
def quoteByte (n : Nat) : String :=
  if n == 32 then "+"
  else if isSafeByte n then String.singleton (Char.ofNat n)
  else percentByte n

/-- UTF-8 byte sequence of a character. -/
def utf8Bytes (c : Char) : List Nat :=
  let n := c.toNat
  if n < 128 then [n]
  else if n < 2048 then [192 + n / 64, 128 + n % 64]
  else if n < 65536 then
    [224 + n / 4096, 128 + (n / 64) % 64, 128 + n % 64]
  else
    [240 + n / 262144, 128 + (n / 4096) % 64, 128 + (n / 64) % 64,
     128 + n % 64]

/-- Model of `urllib.parse.quote_plus`: UTF-8 encode, then map each
byte through `quoteByte`. -/
def quote_plus (s : String) : String :=
  String.join (s.data.map (fun c => String.join ((utf8Bytes c).map quoteByte)))

/-- Python `str(bool)` as interpolated into the `compress` parameter. -/
def pyBoolStr (b : Bool) : String := if b then "True" else "False"

/-- `JetstreamClient` state relevant to URL construction and cursor
tracking (`jetstream_client.py:36-64`). -/
structure JetstreamClient where
  host : String
  collections : List String := []
  max_message_size_bytes : Int := 0
  wanted_dids : List String := []
  compress : Bool := false
  last_cursor : Option Int := none
deriving DecidableEq, Repr

/-- The query parameters assembled by `_get_subscription_url`
(`jetstream_client.py:66-78`), as (key, encoded value) pairs in the
exact order the code appends them: size parameter only when positive,
compress flag only when true, then one `wantedCollections` entry per
collection and one `wantedDids` entry per did, in list order. -/
def subscriptionQueryParams (c : JetstreamClient) : List (String × String) :=
  (if c.max_message_size_bytes > 0 then
    [("max_message_size_bytes", toString c.max_message_size_bytes)]
  else []) ++
  (if c.compress then [("compress", pyBoolStr c.compress)] else []) ++
  c.collections.map (fun col => ("wantedCollections", quote_plus col)) ++
  c.wanted_dids.map (fun d => ("wantedDids", quote_plus d))

/-- One rendered `key=value` query parameter. -/
def renderParam (kv : String × String) : String := kv.1 ++ "=" ++ kv.2

/-- Python `"&".join(...)`. -/
def joinAmp : List String → String
  | [] => ""
  | [x] => x
  | x :: y :: xs => x ++ "&" ++ joinAmp (y :: xs)

/-- `JetstreamClient._get_subscription_url` (`jetstream_client.py:66-82`). -/
def get_subscription_url (c : JetstreamClient) : String :=
  let qp := subscriptionQueryParams c
  if qp.isEmpty then c.host
  else c.host ++ "?" ++ joinAmp (qp.map renderParam)

/-- Cursor-tracking effect of one successful yield in
`JetstreamClient.subscribe` (`jetstream_client.py:198-201`): before each
message is yielded, `last_cursor` is set to its `time_us`. -/
def subscribeYield (c : JetstreamClient) (m : Message) : JetstreamClient :=
  { c with last_cursor := some m.time_us }

/-- Cursor tracking over a whole yielded message sequence. -/
def subscribeRun (c : JetstreamClient) (ms : List Message) : JetstreamClient :=
  ms.foldl subscribeYield c

/-- The query parameters of `JetstreamClient.resume_from_cursor`
(`jetstream_client.py:228-256`): `none` when neither an argument cursor
nor a tracked `last_cursor` exists (the method returns without
reconnecting); otherwise the cursor parameter — the argument if given,
else the tracked cursor — followed by the same parameter block the
subscription URL uses. -/
def resumeQueryParams (c : JetstreamClient) (cursor : Option Int) :
    Option (List (String × String)) :=
  match cursor, c.last_cursor with
  | none, none => none
  | some x, _ => some (("cursor", toString x) :: subscriptionQueryParams c)
  | none, some x => some (("cursor", toString x) :: subscriptionQueryParams c)

/-- The reconnection URL built by `resume_from_cursor`
(`jetstream_client.py:245-256`). -/
def resume_from_cursor_url (c : JetstreamClient) (cursor : Option Int) :
    Option String :=
  (resumeQueryParams c cursor).map
    (fun qp => c.host ++ "?" ++ joinAmp (qp.map renderParam))

/-! ## Helper lemmas -/

/-- A row found by `find?` is a member of the table. -/
theorem mem_of_find?_user {l : List UserRow} {p : UserRow → Bool}
    {u : UserRow} (h : l.find? p = some u) : u ∈ l :=
  List.mem_of_find?_eq_some h

/-- `updateUserRow` at the id of a member row succeeds and returns the
replacement row. -/
theorem updateUserRow_of_mem {st : UserStore} {u : UserRow}
    (h : u ∈ st.rows) (v : UserRow) :
    updateUserRow st u.id v =
      ({ st with
         rows := st.rows.map (fun w => if w.id = u.id then v else w) },
       some v) := by
  unfold updateUserRow
  rw [if_pos]
  exact List.any_eq_true.mpr ⟨u, h, by simp⟩

/-- The replacement row is a member of the updated table. -/
theorem mem_rows_updateUserRow {st : UserStore} {u : UserRow}
    (h : u ∈ st.rows) (v : UserRow) :
    v ∈ st.rows.map (fun w => if w.id = u.id then v else w) :=
  List.mem_map.mpr ⟨u, h, by simp⟩

/-! ## Claim C2 -/

/-- Demo data: an Identity event with sequence number 5. -/
def seqIdn5 : Identity :=
  { did := "did:plc:a", handle := "h1", seq := SeqVal.int 5, time := "t1" }

/-- Demo data: a later Identity event for the same actor with the lower
sequence number 3. -/
def seqIdn3 : Identity :=
  { did := "did:plc:a", handle := "h2", seq := SeqVal.int 3, time := "t2" }

/-- The store after applying the sequence-5 Identity to an empty table. -/
def seqDemoSt : UserStore := (upsert_from_identity emptyUsers seqIdn5).1

/-- C2: for every stored user and incoming Identity or Account event for
the same actor id whose sequence numbers both coerce to integers, the
upsert applies the update only if the incoming sequence number is
strictly greater than the stored one, and otherwise is a no-op that
still returns the current stored entity; in particular Identity events
with sequence numbers 5 then 3 leave the stored state at sequence 5. -/
theorem upsert_sequence_monotonic :
    (∀ (st : UserStore) (u : UserRow) (idn : Identity) (sv : SeqVal)
       (a b : Int),
       getByDid st idn.did = some u →
       u.seq = some sv →
       seqCoerce sv = some a →
       seqCoerce idn.seq = some b →
       (b ≤ a → upsert_from_identity st idn = (st, u)) ∧
       (a < b →
         (upsert_from_identity st idn).2.id = u.id ∧
         (upsert_from_identity st idn).2.seq = some idn.seq ∧
         (upsert_from_identity st idn).2.handle = idn.handle ∧
         (upsert_from_identity st idn).2 ∈ (upsert_from_identity st idn).1.rows)) ∧
    (∀ (st : UserStore) (u : UserRow) (acc : Account) (sv : SeqVal)
       (a b : Int),
       getByDid st acc.did = some u →
       u.seq = some sv →
       seqCoerce sv = some a →
       seqCoerce acc.seq = some b →
       (b ≤ a → update_from_account st acc = (st, u)) ∧
       (a < b →
         (update_from_account st acc).2.id = u.id ∧
         (update_from_account st acc).2.seq = some acc.seq ∧
         (update_from_account st acc).2.active = acc.active ∧
         (update_from_account st acc).2 ∈ (update_from_account st acc).1.rows)) ∧
    ((upsert_from_identity seqDemoSt seqIdn3).1 = seqDemoSt ∧
     (upsert_from_identity seqDemoSt seqIdn3).2.seq = some (SeqVal.int 5) ∧
     (getByDid seqDemoSt "did:plc:a").map UserRow.seq =
       some (some (SeqVal.int 5))) := by
  refine ⟨?_, ?_, by decide⟩
  · intro st u idn sv a b hfind hseq ha hb
    have hmem : u ∈ st.rows := mem_of_find?_user hfind
    constructor
    · intro hle
      have hskip : seqSkips u.seq idn.seq = true := by
        simp [seqSkips, hseq, ha, hb]
        omega
      simp [upsert_from_identity, hfind, hskip]
    · intro hlt
      have hskip : seqSkips u.seq idn.seq = false := by
        simp [seqSkips, hseq, ha, hb]
        omega
      simp only [upsert_from_identity, hfind, hskip, Bool.false_eq_true,
        if_false]
      rw [updateUserRow_of_mem hmem]
      refine ⟨rfl, rfl, rfl, ?_⟩
      exact mem_rows_updateUserRow hmem _
  · intro st u acc sv a b hfind hseq ha hb
    have hmem : u ∈ st.rows := mem_of_find?_user hfind
    constructor
    · intro hle
      have hskip : seqSkips u.seq acc.seq = true := by
        simp [seqSkips, hseq, ha, hb]
        omega
      simp [update_from_account, hfind, hskip]
    · intro hlt
      have hskip : seqSkips u.seq acc.seq = false := by
        simp [seqSkips, hseq, ha, hb]
        omega
      simp only [update_from_account, hfind, hskip, Bool.false_eq_true,
        if_false]
      rw [updateUserRow_of_mem hmem]
      refine ⟨rfl, rfl, rfl, ?_⟩
      exact mem_rows_updateUserRow hmem _

/-- Witness for C2 at a concrete store: the sequence-3 event after the
sequence-5 event hits the no-op branch. -/
theorem upsert_sequence_monotonic_witness :
    upsert_from_identity seqDemoSt seqIdn3 =
      (seqDemoSt, (upsert_from_identity emptyUsers seqIdn5).2) := by
  have h := (upsert_sequence_monotonic.1 seqDemoSt
    ((upsert_from_identity emptyUsers seqIdn5).2) seqIdn3 (SeqVal.int 5) 5 3
    (by decide) (by decide) (by decide) (by decide)).1 (by decide)
  rw [h]

/-! ## Claim C8 -/

/-- Demo data: a stored user whose sequence slot holds a non-numeric
string, so `int(str(...))` fails on it. -/
def badSeqUser : UserRow :=
  { id := 7, did := "did:plc:b", handle := "hb",
    seq := some (SeqVal.str "not-a-number"), bsky_timestamp := "t0",
    active := true }

/-- Demo store containing only the non-numeric-sequence user. -/
def badSeqStore : UserStore := { rows := [badSeqUser], nextId := 8 }

/-- Demo Identity event addressed to the non-numeric-sequence user. -/
def badSeqIdn : Identity :=
  { did := "did:plc:b", handle := "hb2", seq := SeqVal.int 9, time := "t9" }

/-- C8: when the stored or incoming sequence number cannot be coerced to
an integer (the `int(str(...))` comparison raises, caught as
`ValueError`/`TypeError`), the upsert proceeds with the update instead
of blocking it: the returned entity carries the incoming data and sits
in the updated table, for both the Identity and the Account path.  The
caught exception never escapes: the embedding of the comparison is the
total function `seqSkips`, which returns `false` on coercion failure. -/
theorem upsert_coercion_failure_proceeds :
    (∀ (st : UserStore) (u : UserRow) (idn : Identity) (sv : SeqVal),
       getByDid st idn.did = some u →
       u.seq = some sv →
       (seqCoerce sv = none ∨ seqCoerce idn.seq = none) →
       (upsert_from_identity st idn).2.id = u.id ∧
       (upsert_from_identity st idn).2.seq = some idn.seq ∧
       (upsert_from_identity st idn).2.handle = idn.handle ∧
       (upsert_from_identity st idn).2 ∈ (upsert_from_identity st idn).1.rows ∧
       (upsert_from_identity st idn).1.rows.length = st.rows.length) ∧
    (∀ (st : UserStore) (u : UserRow) (acc : Account) (sv : SeqVal),
       getByDid st acc.did = some u →
       u.seq = some sv →
       (seqCoerce sv = none ∨ seqCoerce acc.seq = none) →
       (update_from_account st acc).2.id = u.id ∧
       (update_from_account st acc).2.seq = some acc.seq ∧
       (update_from_account st acc).2.active = acc.active ∧
       (update_from_account st acc).2 ∈ (update_from_account st acc).1.rows ∧
       (update_from_account st acc).1.rows.length = st.rows.length) := by
  constructor
  · intro st u idn sv hfind hseq hcoerce
    have hmem : u ∈ st.rows := mem_of_find?_user hfind
    have hskip : seqSkips u.seq idn.seq = false := by
      rcases hcoerce with h | h
      · simp [seqSkips, hseq, h]
      · simp only [seqSkips, hseq, h]
        cases seqCoerce sv <;> simp
    simp only [upsert_from_identity, hfind, hskip, Bool.false_eq_true,
      if_false]
    rw [updateUserRow_of_mem hmem]
    refine ⟨rfl, rfl, rfl, mem_rows_updateUserRow hmem _, by simp⟩
  · intro st u acc sv hfind hseq hcoerce
    have hmem : u ∈ st.rows := mem_of_find?_user hfind
    have hskip : seqSkips u.seq acc.seq = false := by
      rcases hcoerce with h | h
      · simp [seqSkips, hseq, h]
      · simp only [seqSkips, hseq, h]
        cases seqCoerce sv <;> simp
    simp only [update_from_account, hfind, hskip, Bool.false_eq_true,
      if_false]
    rw [updateUserRow_of_mem hmem]
    refine ⟨rfl, rfl, rfl, mem_rows_updateUserRow hmem _, by simp⟩

/-- Witness for C8 at a concrete store: a stored non-numeric sequence
value lets the incoming Identity update through. -/
theorem upsert_coercion_failure_proceeds_witness :
    (upsert_from_identity badSeqStore badSeqIdn).2.seq =
        some (SeqVal.int 9) ∧
      (upsert_from_identity badSeqStore badSeqIdn).2.handle = "hb2" :=
  ⟨((upsert_coercion_failure_proceeds.1 badSeqStore badSeqUser badSeqIdn
      (SeqVal.str "not-a-number") (by decide) (by decide)
      (Or.inl (by decide))).2.1),
   ((upsert_coercion_failure_proceeds.1 badSeqStore badSeqUser badSeqIdn
      (SeqVal.str "not-a-number") (by decide) (by decide)
      (Or.inl (by decide))).2.2.1)⟩

/-! ## Post-table helper lemmas -/

/-- A post found by `find?` is a member of the table. -/
theorem mem_of_find?_post {l : List PostRow} {p : PostRow → Bool}
    {x : PostRow} (h : l.find? p = some x) : x ∈ l :=
  List.mem_of_find?_eq_some h

/-- `updatePostRow` at the id of a member row succeeds and returns the
replacement row. -/
theorem updatePostRow_of_mem {st : PostStore} {p : PostRow}
    (h : p ∈ st.rows) (v : PostRow) :
    updatePostRow st p.id v =
      ({ st with
         rows := st.rows.map (fun q => if q.id = p.id then v else q) },
       some v) := by
  unfold updatePostRow
  rw [if_pos]
  exact List.any_eq_true.mpr ⟨p, h, by simp⟩

/-- Looking up the inserted key after a dict assignment yields the newly
assigned value. -/
theorem alookup_dictInsert_self (d : List (String × String)) (k v : String) :
    alookup (dictInsert d k v) k = some v := by
  unfold dictInsert
  by_cases hany : d.any (fun kv => kv.1 = k) = true
  · rw [if_pos hany]
    induction d with
    | nil => simp at hany
    | cons kv rest ih =>
      by_cases hk : kv.1 = k
      · simp [alookup, hk]
      · simp only [List.any_cons, Bool.or_eq_true, decide_eq_true_eq] at hany
        rcases hany with h | h
        · exact absurd h hk
        · simpa [alookup, hk] using ih h
  · rw [if_neg hany]
    induction d with
    | nil => simp [alookup]
    | cons kv rest ih =>
      simp only [List.any_cons, Bool.or_eq_true, decide_eq_true_eq,
        not_or] at hany
      simpa [alookup, hany.1] using ih (by simpa using hany.2)

/-- Replacing the entries of one key does not change `find?` at another
key. -/
theorem find?_key_mapReplace_ne (d : List (String × String)) {k k' : String}
    (v : String) (h : k' ≠ k) :
    (d.map (fun kv => if kv.1 = k then (k, v) else kv)).find?
        (fun kv => kv.1 = k') =
      d.find? (fun kv => kv.1 = k') := by
  induction d with
  | nil => rfl
  | cons kv rest ih =>
    simp only [List.map_cons]
    by_cases hk : kv.1 = k
    · rw [if_pos hk]
      rw [List.find?_cons_of_neg _ (by simp [Ne.symm h]),
          List.find?_cons_of_neg _ (by simp [hk, Ne.symm h])]
      exact ih
    · rw [if_neg hk]
      by_cases hk' : kv.1 = k'
      · rw [List.find?_cons_of_pos _ (by simp [hk']),
            List.find?_cons_of_pos _ (by simp [hk'])]
      · rw [List.find?_cons_of_neg _ (by simp [hk']),
            List.find?_cons_of_neg _ (by simp [hk'])]
        exact ih

/-- Replacing the entries of one key does not change lookups at another
key. -/
theorem alookup_mapReplace_ne (d : List (String × String)) {k k' : String}
    (v : String) (h : k' ≠ k) :
    alookup (d.map (fun kv => if kv.1 = k then (k, v) else kv)) k' =
      alookup d k' := by
  unfold alookup
  rw [find?_key_mapReplace_ne d v h]

/-- Appending an entry for one key does not change lookups at another
key. -/
theorem alookup_append_single_ne (d : List (String × String))
    {k k' : String} (v : String) (h : k' ≠ k) :
    alookup (d ++ [(k, v)]) k' = alookup d k' := by
  induction d with
  | nil => simp [alookup, Ne.symm h]
  | cons kv rest ih =>
    by_cases hk' : kv.1 = k'
    · simp [alookup, hk']
    · simpa [alookup, hk'] using ih

/-- A dict assignment leaves the values of every other key unchanged. -/
theorem alookup_dictInsert_ne (d : List (String × String)) {k k' : String}
    (v : String) (h : k' ≠ k) :
    alookup (dictInsert d k v) k' = alookup d k' := by
  unfold dictInsert
  by_cases hany : d.any (fun kv => kv.1 = k) = true
  · rw [if_pos hany]
    exact alookup_mapReplace_ne d v h
  · rw [if_neg hany]
    exact alookup_append_single_ne d v h

/-! ## Claim C9 -/

/-- C9: a commit whose record is absent, or whose collection is not a
feed collection, short-circuits `process_post_commit`: the table is
untouched and `none` is returned — in particular a record-less delete
commit never marks an existing post as deleted. -/
theorem process_post_commit_guard :
    ∀ (st : PostStore) (c : Commit) (u : UserRow) (now : String),
      (c.record = none ∨ strStartsWith c.collection "app.bsky.feed." = false) →
      process_post_commit st c u now = (st, none) := by
  intro st c u now h
  match hrec : c.record with
  | none => simp [process_post_commit, hrec]
  | some r =>
    rcases h with h | h
    · rw [hrec] at h
      cases h
    · simp [process_post_commit, hrec, h]

/-! ## Shared demo data for the post-commit claims -/

/-- Demo post author. -/
def demoUser : UserRow :=
  { id := 0, did := "did:plc:a", handle := "h",
    seq := some (SeqVal.int 1), bsky_timestamp := "t0", active := true }

/-- Demo post record carrying open extra fields. -/
def demoRecord : Record :=
  { record_type := "app.bsky.feed.post", createdAt := "2025-01-01",
    text := some "hello", extra := [("facets", "X"), ("embed", "Y")] }

/-- Demo create commit. -/
def demoCreate : Commit :=
  { rev := "r1", operation := Op.create, collection := "app.bsky.feed.post",
    rkey := "k1", record := some demoRecord }

/-- Demo delete commit with no attached record, as delete events arrive
on the wire. -/
def demoDeleteNoRecord : Commit :=
  { rev := "r2", operation := Op.delete, collection := "app.bsky.feed.post",
    rkey := "k1", record := none }

/-- Demo delete commit that does carry a record. -/
def demoDeleteWithRecord : Commit :=
  { rev := "r2", operation := Op.delete, collection := "app.bsky.feed.post",
    rkey := "k1", record := some demoRecord }

/-- The post table after applying the demo create commit once. -/
def demoPostStore : PostStore :=
  (process_post_commit emptyPosts demoCreate demoUser "t1").1

/-- Witness for C9: the record-less delete commit leaves the concrete
one-post table untouched and returns nothing. -/
theorem process_post_commit_guard_witness :
    process_post_commit demoPostStore demoDeleteNoRecord demoUser "t3" =
      (demoPostStore, none) :=
  process_post_commit_guard demoPostStore demoDeleteNoRecord demoUser "t3"
    (Or.inl (by decide))

/-! ## Claim C5 -/

/-- Counterexample to C5 as stated: `demoDeleteNoRecord` is a delete
commit whose derived URI matches the existing stored post, yet
processing it leaves the stored operation at `"create"` — no
`deleted_at` marker and no `operation = "delete"` are written, because
the record-absence guard fires first. -/
theorem soft_delete_as_stated_false :
    demoDeleteNoRecord.operation = Op.delete ∧
    (getByUri demoPostStore (postUri demoUser demoDeleteNoRecord)).isSome =
      true ∧
    ((process_post_commit demoPostStore demoDeleteNoRecord demoUser
        "t3").1.rows.map PostRow.operation) = ["create"] ∧
    (process_post_commit demoPostStore demoDeleteNoRecord demoUser "t3").2 =
      none := by
  decide

/-- C5 (amended: restricted to delete commits that carry a record and a
feed collection, the only ones that reach the delete branch): the
matching row is kept — not removed — with `operation` set to
`"delete"` and `additional_data` merged, not replaced: the `deleted_at`
marker is added and every other previously stored extra field keeps its
value. -/
theorem soft_delete_merge_amended :
    ∀ (st : PostStore) (c : Commit) (u : UserRow) (now : String)
      (r : Record) (p : PostRow),
      c.operation = Op.delete →
      c.record = some r →
      strStartsWith c.collection "app.bsky.feed." = true →
      getByUri st (postUri u c) = some p →
      ∃ p2,
        process_post_commit st c u now =
          ({ st with
             rows := st.rows.map (fun q => if q.id = p.id then p2 else q) },
           some p2) ∧
        p2.id = p.id ∧ p2.uri = p.uri ∧ p2.text = p.text ∧
        p2.operation = "delete" ∧
        alookup (p2.additional_data.getD []) "deleted_at" = some now ∧
        (∀ k v, k ≠ "deleted_at" →
          alookup (p.additional_data.getD []) k = some v →
          alookup (p2.additional_data.getD []) k = some v) ∧
        (process_post_commit st c u now).1.rows.length = st.rows.length := by
  intro st c u now r p hop hrec hcol hfind
  have hmem : p ∈ st.rows := mem_of_find?_post hfind
  have heval : process_post_commit st c u now =
      ({ st with rows := st.rows.map (fun q => if q.id = p.id then { p with operation := "delete", additional_data := some (dictInsert (p.additional_data.getD []) "deleted_at" now) } else q) },
       some { p with operation := "delete", additional_data := some (dictInsert (p.additional_data.getD []) "deleted_at" now) }) := by
    simp only [process_post_commit, hrec, hcol, hop, hfind, Bool.not_true,
      Bool.false_eq_true, if_false, if_true, eq_self_iff_true]
    rw [updatePostRow_of_mem hmem]
  refine ⟨{ p with operation := "delete", additional_data := some (dictInsert (p.additional_data.getD []) "deleted_at" now) }, heval, rfl, rfl, rfl, rfl, ?_, ?_, ?_⟩
  · exact alookup_dictInsert_self _ _ _
  · intro k v hk hv
    show alookup (dictInsert (p.additional_data.getD []) "deleted_at" now) k =
      some v
    rw [alookup_dictInsert_ne _ now hk]
    exact hv
  · rw [heval]
    simp

/-- The row created by the demo create commit, written out. -/
def demoCreatedRow : PostRow :=
  applyPostData { id := 0 } demoCreate demoRecord demoUser

/-- Witness for C5 (amended) at a concrete store: a record-carrying
delete commit after the demo create soft-deletes the row, keeping the
create's extra fields next to the new marker. -/
theorem soft_delete_merge_amended_witness :
    ∃ p2,
      process_post_commit demoPostStore demoDeleteWithRecord demoUser "t3" =
        ({ demoPostStore with
           rows := demoPostStore.rows.map
             (fun q => if q.id = demoCreatedRow.id then p2 else q) },
         some p2) ∧
      p2.id = demoCreatedRow.id ∧
      p2.uri = demoCreatedRow.uri ∧
      p2.text = demoCreatedRow.text ∧
      p2.operation = "delete" ∧
      alookup (p2.additional_data.getD []) "deleted_at" = some "t3" ∧
      (∀ k v, k ≠ "deleted_at" →
        alookup (demoCreatedRow.additional_data.getD []) k = some v →
        alookup (p2.additional_data.getD []) k = some v) ∧
      (process_post_commit demoPostStore demoDeleteWithRecord demoUser
          "t3").1.rows.length = demoPostStore.rows.length :=
  soft_delete_merge_amended demoPostStore demoDeleteWithRecord demoUser "t3"
    demoRecord demoCreatedRow
    (by decide) (by decide) (by decide) (by decide)

/-! ## Claim C3 -/

/-- `applyPostData` writes the derived URI. -/
theorem applyPostData_uri (p : PostRow) (c : Commit) (r : Record)
    (u : UserRow) : (applyPostData p c r u).uri = postUri u c := by
  cases hr : r.reply <;> simp [applyPostData, hr]

/-- `applyPostData` keeps the row id. -/
theorem applyPostData_id (p : PostRow) (c : Commit) (r : Record)
    (u : UserRow) : (applyPostData p c r u).id = p.id := by
  cases hr : r.reply <;> simp [applyPostData, hr]

/-- `applyPostData` is idempotent: re-applying the same commit data to
an already-updated row changes nothing (every written column gets the
same value again, and the reply columns are either rewritten identically
or left untouched). -/
theorem applyPostData_idem (p : PostRow) (c : Commit) (r : Record)
    (u : UserRow) :
    applyPostData (applyPostData p c r u) c r u = applyPostData p c r u := by
  cases hr : r.reply <;> simp [applyPostData, hr]

/-- `find?` skips a prefix on which it fails. -/
theorem find?_append_of_none {α : Type} {l₁ l₂ : List α} {p : α → Bool}
    (h : l₁.find? p = none) : (l₁ ++ l₂).find? p = l₂.find? p := by
  induction l₁ with
  | nil => rfl
  | cons a rest ih =>
    have hpa : ¬p a = true := by
      intro hc
      rw [List.find?_cons_of_pos _ hc] at h
      cases h
    rw [List.find?_cons_of_neg _ hpa] at h
    rw [List.cons_append, List.find?_cons_of_neg _ hpa]
    exact ih h

/-- Replacing, by id, the first row whose uri matches leaves it the
first uri match, provided row ids are pairwise distinct. -/
theorem find?_uri_update (rows : List PostRow) (t : String) (p v : PostRow)
    (huniq : rows.Pairwise (fun a b => a.id ≠ b.id))
    (hfind : rows.find? (fun q => q.uri = t) = some p)
    (hv : v.uri = t) :
    (rows.map (fun q => if q.id = p.id then v else q)).find?
        (fun q => q.uri = t) = some v := by
  induction rows with
  | nil => cases hfind
  | cons a rest ih =>
    by_cases ha : a.uri = t
    · rw [List.find?_cons_of_pos _ (by simpa using ha)] at hfind
      have hap : a = p := by cases hfind; rfl
      subst hap
      simp only [List.map_cons, if_pos rfl]
      rw [List.find?_cons_of_pos _ (by simpa using hv)]
      simp
    · rw [List.find?_cons_of_neg _ (by simpa using ha)] at hfind
      have hpmem : p ∈ rest := mem_of_find?_post hfind
      have haid : a.id ≠ p.id := (List.pairwise_cons.mp huniq).1 p hpmem
      simp only [List.map_cons, if_neg haid]
      rw [List.find?_cons_of_neg _ (by simpa using ha)]
      exact ih (List.pairwise_cons.mp huniq).2 hfind

/-- Re-running an id-keyed replacement with the same row is a no-op. -/
theorem map_replace_idem (rows : List PostRow) (i : Nat) (v : PostRow)
    (hv : v.id = i) :
    (rows.map (fun q => if q.id = i then v else q)).map
        (fun q => if q.id = i then v else q) =
      rows.map (fun q => if q.id = i then v else q) := by
  rw [List.map_map]
  apply List.map_congr_left
  intro q _
  by_cases h : q.id = i
  · simp [Function.comp, h, hv]
  · simp [Function.comp, h]

/-- Well-formedness of a post table as produced by the repository: every
primary key is below the fresh-id counter, and primary keys are
pairwise distinct. -/
def PostWF (st : PostStore) : Prop :=
  (∀ p ∈ st.rows, p.id < st.nextId) ∧
    st.rows.Pairwise (fun a b => a.id ≠ b.id)

/-- C3: applying the same create/update commit twice leaves the post
table exactly as after one application — the second application updates
the first application's row in place with identical data and returns the
same result, never creating a second row; and starting from a table with
no row at the derived URI, at most one row at that URI ever exists. -/
theorem process_post_commit_idempotent :
    ∀ (st : PostStore) (c : Commit) (u : UserRow) (now : String),
      PostWF st →
      (c.operation = Op.create ∨ c.operation = Op.update) →
      process_post_commit (process_post_commit st c u now).1 c u now =
          process_post_commit st c u now ∧
        ((st.rows.countP (fun q => q.uri = postUri u c)) = 0 →
          ((process_post_commit st c u now).1.rows.countP
            (fun q => q.uri = postUri u c)) ≤ 1) := by
  intro st c u now hwf hop
  have hopeq : (c.operation = Op.delete) = False := by
    rcases hop with h | h <;> simp [h]
  match hrec : c.record with
  | none =>
    have h1 : process_post_commit st c u now = (st, none) := by
      simp [process_post_commit, hrec]
    refine ⟨by rw [h1]; exact h1, fun h0 => ?_⟩
    rw [h1]
    show st.rows.countP (fun q => q.uri = postUri u c) ≤ 1
    omega
  | some r =>
    by_cases hcol : strStartsWith c.collection "app.bsky.feed." = true
    · cases hfind : getByUri st (postUri u c) with
      | some p =>
        have hmem : p ∈ st.rows := mem_of_find?_post hfind
        have hid : (applyPostData p c r u).id = p.id :=
          applyPostData_id p c r u
        have h1 : process_post_commit st c u now =
            ({ st with rows := st.rows.map (fun q => if q.id = p.id then applyPostData p c r u else q) },
             some (applyPostData p c r u)) := by
          simp only [process_post_commit, hrec, hcol, Bool.not_true,
            Bool.false_eq_true, if_false, hopeq, hfind]
          rw [updatePostRow_of_mem hmem]
          rfl
        constructor
        · rw [h1]
          have hfind2 : getByUri
              ({ st with rows := st.rows.map (fun q => if q.id = p.id then applyPostData p c r u else q) })
              (postUri u c) = some (applyPostData p c r u) :=
            find?_uri_update st.rows (postUri u c) p _ hwf.2 hfind
              (applyPostData_uri p c r u)
          have hmem2 : applyPostData p c r u ∈
              st.rows.map (fun q => if q.id = p.id then applyPostData p c r u else q) :=
            List.mem_map.mpr ⟨p, hmem, by simp⟩
          simp only [process_post_commit, hrec, hcol, Bool.not_true,
            Bool.false_eq_true, if_false, hopeq, hfind2,
            applyPostData_idem]
          rw [updatePostRow_of_mem hmem2]
          rw [hid]
          rw [map_replace_idem st.rows p.id (applyPostData p c r u) hid]
          rfl
        · intro h0
          rw [List.countP_eq_zero] at h0
          have := List.find?_some hfind
          exact absurd this (by simpa using h0 p hmem)
      | none =>
        have h1 : process_post_commit st c u now =
            ({ rows := st.rows ++ [applyPostData { id := st.nextId } c r u], nextId := st.nextId + 1 },
             some (applyPostData { id := st.nextId } c r u)) := by
          simp only [process_post_commit, hrec, hcol, Bool.not_true,
            Bool.false_eq_true, if_false, hopeq, hfind]
        set v := applyPostData { id := st.nextId } c r u with hvdef
        have hvid : v.id = st.nextId := applyPostData_id _ c r u
        have hvuri : v.uri = postUri u c := applyPostData_uri _ c r u
        have hidem : applyPostData v c r u = v := by
          rw [hvdef]
          exact applyPostData_idem _ c r u
        constructor
        · rw [h1]
          have hfind2 : getByUri
              ({ rows := st.rows ++ [v], nextId := st.nextId + 1 } : PostStore)
              (postUri u c) = some v := by
            show (st.rows ++ [v]).find? (fun q => q.uri = postUri u c) = some v
            rw [find?_append_of_none hfind,
              List.find?_cons_of_pos _ (by simpa using hvuri)]
          have hmem2 : v ∈ st.rows ++ [v] := by simp
          simp only [process_post_commit, hrec, hcol, Bool.not_true,
            Bool.false_eq_true, if_false, hopeq, hfind2, hidem]
          rw [updatePostRow_of_mem hmem2]
          have hrows : (st.rows ++ [v]).map (fun q => if q.id = v.id then v else q) =
              st.rows ++ [v] := by
            rw [List.map_append]
            have hleft : st.rows.map (fun q => if q.id = v.id then v else q) =
                st.rows := by
              have : st.rows.map (fun q => if q.id = v.id then v else q) =
                  st.rows.map id := by
                apply List.map_congr_left
                intro q hq
                have : q.id ≠ v.id := by
                  have := hwf.1 q hq
                  omega
                simp [this]
              rw [this, List.map_id]
            rw [hleft]
            simp
          rw [hrows]
          rfl
        · intro h0
          rw [h1]
          show (st.rows ++ [v]).countP (fun q => q.uri = postUri u c) ≤ 1
          rw [List.countP_append]
          have hz : st.rows.countP (fun q => decide (q.uri = postUri u c)) = 0 :=
            h0
          rw [hz]
          simp [List.countP_cons, hvuri]
    · have hcolf : strStartsWith c.collection "app.bsky.feed." = false := by
        revert hcol
        cases strStartsWith c.collection "app.bsky.feed." <;> simp
      have h1 : process_post_commit st c u now = (st, none) := by
        simp [process_post_commit, hrec, hcolf]
      refine ⟨by rw [h1]; exact h1, fun h0 => ?_⟩
      rw [h1]
      show st.rows.countP (fun q => q.uri = postUri u c) ≤ 1
      omega

/-- Witness for C3 at a concrete store: the demo create commit applied
twice to the empty table. -/
theorem process_post_commit_idempotent_witness :
    process_post_commit (process_post_commit emptyPosts demoCreate demoUser
        "t1").1 demoCreate demoUser "t1" =
        process_post_commit emptyPosts demoCreate demoUser "t1" ∧
      ((emptyPosts.rows.countP
          (fun q => q.uri = postUri demoUser demoCreate)) = 0 →
        ((process_post_commit emptyPosts demoCreate demoUser
            "t1").1.rows.countP
          (fun q => q.uri = postUri demoUser demoCreate)) ≤ 1) :=
  process_post_commit_idempotent emptyPosts demoCreate demoUser "t1"
    ⟨by simp [emptyPosts], by simp [emptyPosts]⟩ (Or.inl rfl)

/-! ## Claim C10 -/

/-- C10: `store_raw_message` always appends exactly one new row, created
with `processed = False`; the row's `raw_data` always carries the
message's did, time_us and kind; and when full serialization fails the
row still exists, with those base fields plus an `"error"` entry holding
the failure text — the serialization failure is swallowed (the embedding
is a total function; the `except` branch is the `dumpOk = false` case). -/
theorem store_raw_message_contract :
    ∀ (st : RawStore) (m : Message),
      (store_raw_message st m).2.processed = false ∧
      (store_raw_message st m).1.rows =
        st.rows ++ [(store_raw_message st m).2] ∧
      alookup (store_raw_message st m).2.raw_data "did" = some m.did ∧
      alookup (store_raw_message st m).2.raw_data "time_us" =
        some (toString m.time_us) ∧
      alookup (store_raw_message st m).2.raw_data "kind" =
        some (kindStr m.kind) ∧
      (m.dumpOk = false →
        alookup (store_raw_message st m).2.raw_data "error" =
          some m.dumpErr) := by
  intro st m
  cases hd : m.dumpOk
  · refine ⟨rfl, rfl, ?_, ?_, ?_, fun _ => ?_⟩ <;>
      simp [store_raw_message, hd, dictInsert, rawBaseData, alookup]
  · refine ⟨rfl, rfl, ?_, ?_, ?_, fun h => ?_⟩
    · simp [store_raw_message, hd, dictMerge, dictInsert, rawBaseData,
        msgDumpDict, alookup]
    · simp [store_raw_message, hd, dictMerge, dictInsert, rawBaseData,
        msgDumpDict, alookup]
    · simp [store_raw_message, hd, dictMerge, dictInsert, rawBaseData,
        msgDumpDict, alookup]
    · cases h

/-- Demo data: a message whose serialization attempt fails. -/
def demoFailMsg : Message :=
  { did := "did:plc:z", time_us := 42, kind := Kind.commit,
    dumpOk := false, dumpErr := "boom" }

/-- Witness for C10 at a concrete message with a failing serialization:
the archive row exists, is unprocessed at creation, and records the
error text. -/
theorem store_raw_message_contract_witness :
    (store_raw_message emptyRaw demoFailMsg).2.processed = false ∧
      alookup (store_raw_message emptyRaw demoFailMsg).2.raw_data "error" =
        some "boom" ∧
      alookup (store_raw_message emptyRaw demoFailMsg).2.raw_data "did" =
        some "did:plc:z" :=
  ⟨(store_raw_message_contract emptyRaw demoFailMsg).1,
   (store_raw_message_contract emptyRaw demoFailMsg).2.2.2.2.2 rfl,
   (store_raw_message_contract emptyRaw demoFailMsg).2.2.1⟩

/-! ## Claim C1 -/

/-- Demo data for the failing batch: a well-formed Identity event. -/
def c1IdnEvent : Identity :=
  { did := "did:plc:c1", handle := "hc1", seq := SeqVal.int 7, time := "t7" }

/-- Demo data: a deserializable identity message. -/
def c1ValidMsg : Message :=
  { did := "did:plc:c1", time_us := 500, kind := Kind.identity,
    identity := some c1IdnEvent }

/-- The failing batch: one malformed payload, and one valid message
whose entity-level apply fails. -/
def c1Inputs : List (KafkaPayload × Option String) :=
  [(KafkaPayload.malformed, none),
   (KafkaPayload.valid c1ValidMsg, some "db down")]

/-- Empty initial state for the failing batch. -/
def c1InitStores : Stores :=
  { users := emptyUsers, posts := emptyPosts, raw := emptyRaw }

/-- C1, evaluated at the failing input: the claim (the spec's archival
invariant) requires that each of the two delivered events leave exactly
one `RawMessage` row with `processed = true`, the apply-failure one
annotated — but the code leaves no row at all.  The malformed event is
dropped by `deserialize_message` before `store_raw_message` is reached
(`persistence.py:207-209`); for the apply-failure event,
`session.rollback()` (`persistence.py:136`) discards the flushed but
uncommitted archive insert, and the follow-up annotation update
(`persistence.py:142-149`) addresses an `additional_data` column the
`raw_message` table does not declare, so it raises and is swallowed
(`persistence.py:152-153`).  This contradicts the code's own comments
("Create a savepoint to allow partial rollback if needed", "Mark the
message as processed but with error flag"): the spec states the intent,
the code is the slip. -/
theorem persistence_archival_code_bug :
    c1Inputs.length = 2 ∧
      (runBatch c1InitStores c1Inputs "t").raw.rows = [] := by
  decide

/-! ## Claim C4 -/

/-- Counterexample to C4 as stated: starting from the initial state,
five consecutive cycle failures leave the backoff at 2, not at
`min (1 * 2 ^ 4) 60 = 16` — the code doubles the backoff only on the
failures at which the consecutive-error count has already reached the
threshold, which among the first five is only the fifth. -/
theorem circuit_breaker_backoff_as_stated_false :
    (cbRun (List.replicate 5 CycleOutcome.fail) cbInit).backoffTime = 2 ∧
      min (1 * 2 ^ 4) 60 = 16 ∧
      (cbRun (List.replicate 5 CycleOutcome.fail) cbInit).backoffTime ≠
        min (1 * 2 ^ 4) 60 := by
  decide

/-- C4 (amended: after five consecutive failures from the initial state
the backoff equals `min (1 * 2) 60 = 2`, because doubling happens only
on failures at or past the threshold of 5): each failure increments the
counter and, once the incremented counter has reached 5, doubles the
backoff capped at 60; an idle poll with a positive counter decrements it
and halves the backoff floored at 1; a successfully processed batch
resets the counter to 0 and the backoff to 1. -/
theorem circuit_breaker_backoff_amended :
    cbRun (List.replicate 5 CycleOutcome.fail) cbInit =
        { consecutiveErrors := 5, backoffTime := 2 } ∧
      (∀ s : CBState, s.consecutiveErrors + 1 ≥ 5 →
        cbStep s CycleOutcome.fail =
          { consecutiveErrors := s.consecutiveErrors + 1,
            backoffTime := min (s.backoffTime * 2) 60 }) ∧
      (∀ s : CBState, s.consecutiveErrors + 1 < 5 →
        cbStep s CycleOutcome.fail =
          { consecutiveErrors := s.consecutiveErrors + 1,
            backoffTime := s.backoffTime }) ∧
      (∀ s : CBState, s.consecutiveErrors > 0 →
        cbStep s CycleOutcome.idle =
          { consecutiveErrors := s.consecutiveErrors - 1,
            backoffTime := max 1 (s.backoffTime / 2) }) ∧
      (∀ s : CBState, cbStep s CycleOutcome.ok =
        { consecutiveErrors := 0, backoffTime := 1 }) := by
  refine ⟨by decide, ?_, ?_, ?_, fun s => rfl⟩
  · intro s h
    simp only [cbStep]
    rw [if_pos h]
  · intro s h
    simp only [cbStep]
    rw [if_neg (by omega)]
  · intro s h
    simp only [cbStep]
    rw [if_pos h]

/-- Witness for C4 (amended) at concrete states: the fifth failure
doubles the backoff to 2, and a subsequent idle poll decrements the
counter and halves the backoff back to 1. -/
theorem circuit_breaker_backoff_amended_witness :
    cbStep { consecutiveErrors := 4, backoffTime := 1 } CycleOutcome.fail =
        { consecutiveErrors := 5, backoffTime := 2 } ∧
      cbStep { consecutiveErrors := 5, backoffTime := 2 } CycleOutcome.idle =
        { consecutiveErrors := 4, backoffTime := 1 } := by
  constructor
  · rw [circuit_breaker_backoff_amended.2.1
      { consecutiveErrors := 4, backoffTime := 1 } (by decide)]
    decide
  · rw [circuit_breaker_backoff_amended.2.2.2.1
      { consecutiveErrors := 5, backoffTime := 2 } (by decide)]
    decide

/-! ## Claim C6 -/

/-- Filtering on a key keeps every parameter built with that key. -/
theorem filter_key_map_self (key : String) (f : String → String)
    (l : List String) :
    (l.map (fun x => (key, f x))).filter (fun kv => kv.1 = key) =
      l.map (fun x => (key, f x)) := by
  induction l with
  | nil => rfl
  | cons x rest ih => simp [ih]

/-- Filtering on a key drops every parameter built with another key. -/
theorem filter_key_map_ne {key key' : String} (h : key ≠ key')
    (f : String → String) (l : List String) :
    (l.map (fun x => (key, f x))).filter (fun kv => kv.1 = key') = [] := by
  induction l with
  | nil => rfl
  | cons x rest ih => simp [ih, h]

/-- The client of the C6 scenario: one collection filter, no did
filters, compression off, no size limit. -/
def c6DemoClient : JetstreamClient :=
  { host := "wss://jetstream1.us-east.bsky.network/subscribe",
    collections := ["app.bsky.feed.post"] }

/-- C6: for the concrete configuration
`collections = ["app.bsky.feed.post"]`, `wanted_dids = []`,
`compress = false`, `max_message_size_bytes = 0`, the subscription URL
carries exactly one `wantedCollections` parameter and no `compress` or
`max_message_size_bytes` parameter; and in general zero/false-valued
parameters are omitted while every element of the collections and
wanted-dids lists contributes one repeated query key, in list order,
without collapsing duplicates. -/
theorem subscription_url_construction :
    (subscriptionQueryParams c6DemoClient =
        [("wantedCollections", "app.bsky.feed.post")] ∧
      get_subscription_url c6DemoClient =
        "wss://jetstream1.us-east.bsky.network/subscribe?wantedCollections=app.bsky.feed.post" ∧
      (subscriptionQueryParams c6DemoClient).countP
          (fun kv => kv.1 = "wantedCollections") = 1 ∧
      (subscriptionQueryParams c6DemoClient).countP
          (fun kv => kv.1 = "compress") = 0 ∧
      (subscriptionQueryParams c6DemoClient).countP
          (fun kv => kv.1 = "max_message_size_bytes") = 0) ∧
    (∀ c : JetstreamClient,
      (subscriptionQueryParams c).filter
          (fun kv => kv.1 = "wantedCollections") =
        c.collections.map (fun col => ("wantedCollections", quote_plus col)) ∧
      (subscriptionQueryParams c).filter (fun kv => kv.1 = "wantedDids") =
        c.wanted_dids.map (fun d => ("wantedDids", quote_plus d)) ∧
      (c.max_message_size_bytes ≤ 0 →
        (subscriptionQueryParams c).filter
          (fun kv => kv.1 = "max_message_size_bytes") = []) ∧
      (c.compress = false →
        (subscriptionQueryParams c).filter (fun kv => kv.1 = "compress") =
          [])) := by
  refine ⟨by decide, fun c => ⟨?_, ?_, ?_, ?_⟩⟩
  · unfold subscriptionQueryParams
    rw [List.filter_append, List.filter_append, List.filter_append]
    rw [filter_key_map_self, filter_key_map_ne (by decide)]
    have h1 : (if c.max_message_size_bytes > 0 then
        [("max_message_size_bytes", toString c.max_message_size_bytes)]
      else []).filter (fun kv => kv.1 = "wantedCollections") = [] := by
      by_cases h : c.max_message_size_bytes > 0 <;> simp [h]
    have h2 : (if c.compress then [("compress", pyBoolStr c.compress)]
        else []).filter (fun kv => kv.1 = "wantedCollections") = [] := by
      by_cases h : c.compress <;> simp [h]
    rw [h1, h2]
    simp
  · unfold subscriptionQueryParams
    rw [List.filter_append, List.filter_append, List.filter_append]
    rw [filter_key_map_self, filter_key_map_ne (by decide)]
    have h1 : (if c.max_message_size_bytes > 0 then
        [("max_message_size_bytes", toString c.max_message_size_bytes)]
      else []).filter (fun kv => kv.1 = "wantedDids") = [] := by
      by_cases h : c.max_message_size_bytes > 0 <;> simp [h]
    have h2 : (if c.compress then [("compress", pyBoolStr c.compress)]
        else []).filter (fun kv => kv.1 = "wantedDids") = [] := by
      by_cases h : c.compress <;> simp [h]
    rw [h1, h2]
    simp
  · intro hsz
    unfold subscriptionQueryParams
    rw [List.filter_append, List.filter_append, List.filter_append]
    rw [filter_key_map_ne (by decide), filter_key_map_ne (by decide)]
    have h1 : (if c.max_message_size_bytes > 0 then
        [("max_message_size_bytes", toString c.max_message_size_bytes)]
      else []).filter (fun kv => kv.1 = "max_message_size_bytes") = [] := by
      rw [if_neg (by omega)]
      rfl
    have h2 : (if c.compress then [("compress", pyBoolStr c.compress)]
        else []).filter (fun kv => kv.1 = "max_message_size_bytes") = [] := by
      by_cases h : c.compress <;> simp [h]
    rw [h1, h2]
    simp
  · intro hcp
    unfold subscriptionQueryParams
    rw [List.filter_append, List.filter_append, List.filter_append]
    rw [filter_key_map_ne (by decide), filter_key_map_ne (by decide)]
    have h1 : (if c.max_message_size_bytes > 0 then
        [("max_message_size_bytes", toString c.max_message_size_bytes)]
      else []).filter (fun kv => kv.1 = "compress") = [] := by
      by_cases h : c.max_message_size_bytes > 0 <;> simp [h]
    have h2 : (if c.compress then [("compress", pyBoolStr c.compress)]
        else []).filter (fun kv => kv.1 = "compress") = [] := by
      rw [hcp]
      rfl
    rw [h1, h2]
    simp

/-- Witness for C6: the omission hypotheses hold at the demo client, so
its parameter list has no size or compress entry. -/
theorem subscription_url_construction_witness :
    (subscriptionQueryParams c6DemoClient).filter
        (fun kv => kv.1 = "max_message_size_bytes") = [] ∧
      (subscriptionQueryParams c6DemoClient).filter
        (fun kv => kv.1 = "compress") = [] :=
  ⟨(subscription_url_construction.2 c6DemoClient).2.2.1 (by decide),
   (subscription_url_construction.2 c6DemoClient).2.2.2 (by decide)⟩

/-! ## Claim C7 -/

/-- C7: `last_cursor` always ends at the `time_us` of the most recently
yielded message; `resume_from_cursor` puts the given cursor — or, when
called without one, the tracked `last_cursor` — verbatim at the head of
the reconnection query parameters, and the reconnection URL's query
string therefore starts with that `cursor=` parameter. -/
theorem cursor_tracking_and_resume :
    (∀ (c : JetstreamClient) (ms : List Message) (m : Message),
      (subscribeRun c (ms ++ [m])).last_cursor = some m.time_us) ∧
    (∀ (c : JetstreamClient) (cur : Int),
      resumeQueryParams c (some cur) =
        some (("cursor", toString cur) :: subscriptionQueryParams c)) ∧
    (∀ (c : JetstreamClient) (cur : Int), c.last_cursor = some cur →
      resumeQueryParams c none =
        some (("cursor", toString cur) :: subscriptionQueryParams c)) ∧
    (∀ (c : JetstreamClient) (cur : Int), ∃ rest,
      resume_from_cursor_url c (some cur) =
        some (c.host ++ "?" ++ ("cursor=" ++ toString cur) ++ rest)) ∧
    (∀ (c : JetstreamClient) (cur : Int), c.last_cursor = some cur →
      ∃ rest,
        resume_from_cursor_url c none =
          some (c.host ++ "?" ++ ("cursor=" ++ toString cur) ++ rest)) := by
  have hsome : ∀ (c : JetstreamClient) (cur : Int),
      resumeQueryParams c (some cur) =
        some (("cursor", toString cur) :: subscriptionQueryParams c) := by
    intro c cur
    cases c.last_cursor <;> rfl
  have hbuild : ∀ (c : JetstreamClient) (cur : Int), ∃ rest,
      c.host ++ "?" ++
          joinAmp ((("cursor", toString cur) ::
            subscriptionQueryParams c).map renderParam) =
        c.host ++ "?" ++ ("cursor=" ++ toString cur) ++ rest := by
    intro c cur
    rw [List.map_cons]
    cases hqp : (subscriptionQueryParams c).map renderParam with
    | nil =>
      refine ⟨"", ?_⟩
      show c.host ++ "?" ++ renderParam ("cursor", toString cur) =
        c.host ++ "?" ++ ("cursor=" ++ toString cur) ++ ""
      have : renderParam ("cursor", toString cur) =
          "cursor=" ++ toString cur := rfl
      rw [this]
      rw [String.append_empty]
    | cons x xs =>
      refine ⟨"&" ++ joinAmp (x :: xs), ?_⟩
      show c.host ++ "?" ++
          joinAmp (renderParam ("cursor", toString cur) :: x :: xs) =
        c.host ++ "?" ++ ("cursor=" ++ toString cur) ++
          ("&" ++ joinAmp (x :: xs))
      have h1 : joinAmp (renderParam ("cursor", toString cur) :: x :: xs) =
          renderParam ("cursor", toString cur) ++ "&" ++
            joinAmp (x :: xs) := rfl
      rw [h1]
      have h2 : renderParam ("cursor", toString cur) =
          "cursor=" ++ toString cur := rfl
      rw [h2]
      simp [String.append_assoc]
  refine ⟨?_, hsome, ?_, ?_, ?_⟩
  · intro c ms m
    rw [subscribeRun, List.foldl_append]
    rfl
  · intro c cur h
    simp [resumeQueryParams, h]
  · intro c cur
    rcases hbuild c cur with ⟨rest, hrest⟩
    refine ⟨rest, ?_⟩
    rw [resume_from_cursor_url, hsome c cur]
    exact congrArg some hrest
  · intro c cur h
    rcases hbuild c cur with ⟨rest, hrest⟩
    refine ⟨rest, ?_⟩
    have hq : resumeQueryParams c none =
        some (("cursor", toString cur) :: subscriptionQueryParams c) := by
      simp [resumeQueryParams, h]
    rw [resume_from_cursor_url, hq]
    exact congrArg some hrest

/-- Demo client with a tracked cursor, as left behind by a subscribe
loop whose last yielded message had `time_us = 12345`. -/
def c7DemoClient : JetstreamClient :=
  { host := "wss://jetstream1.us-east.bsky.network/subscribe",
    collections := ["app.bsky.feed.post"], last_cursor := some 12345 }

/-- Witness for C7: resuming the demo client without an argument falls
back to the tracked cursor 12345 and puts it at the head of the
reconnection parameters. -/
theorem cursor_tracking_and_resume_witness :
    resumeQueryParams c7DemoClient none =
        some (("cursor", toString (12345 : Int)) ::
          subscriptionQueryParams c7DemoClient) ∧
      ∃ rest,
        resume_from_cursor_url c7DemoClient none =
          some (c7DemoClient.host ++ "?" ++
            ("cursor=" ++ toString (12345 : Int)) ++ rest) :=
  ⟨cursor_tracking_and_resume.2.2.1 c7DemoClient 12345 rfl,
   cursor_tracking_and_resume.2.2.2.2 c7DemoClient 12345 rfl⟩

end BskyFirehose
